import Mathlib

/-!
# Cable CxxTypes: `ReferenceType`

A shallow embedding of `Utilities/Cable/CxxTypes/cxxReferenceType.cxx` and of the
parts of the type model it relies on.

The source file defines four members of `ReferenceType`:

* `GetRepresentationType`, which returns `ReferenceType_id`;
* `GenerateName`, which returns `m_ReferencedType.GenerateName("&")`;
* `GetReferencedType`, which returns `m_ReferencedType`;
* the constructor, which stores its argument in `m_ReferencedType`.

Everything else (`cxxTypes.h`, the qualification wrapper, the leaf types) is not part
of the source tree at hand and is modelled from the specification; each such
definition says so in its doc comment.  The variants Pointer, Array and Function are
not modelled: their code is absent and nothing below depends on them, so a type graph
here is a chain of references that ends in a leaf type or in an absent type.
-/

namespace cxx

/-- Modelled from the spec: the enumeration `RepresentationType` of `cxxTypes.h`
(not under src), one tag per variant of section 3 of the specification. -/
inductive RepresentationType where
  | FundamentalType_id
  | EnumerationType_id
  | ClassType_id
  | PointerType_id
  | ReferenceType_id
  | ArrayType_id
  | FunctionType_id
deriving DecidableEq, Repr

/-- Modelled from the spec: the data of the class `CvQualifiedType` (its declaration is
in `cxxTypes.h`, not under src): an underlying type together with the two flags
is-const and is-volatile.  The underlying type is held by reference; an absent (null)
reference is `none`.  The structure is parametric in the type of types so that the
recursive type `CxxType` below can contain it. -/
structure CvQualifiedTypeOf (T : Type) where
  m_Type : Option T
  m_Const : Bool
  m_Volatile : Bool
deriving DecidableEq, Repr

/-- The data of the class `ReferenceType`: the single member `m_ReferencedType`,
initialised by the constructor `ReferenceType(const CvQualifiedType& in_type)`, which
stores `in_type` and checks nothing.  The constructor is `ReferenceTypeOf.mk`. -/
structure ReferenceTypeOf (T : Type) where
  m_ReferencedType : CvQualifiedTypeOf T
deriving DecidableEq, Repr

/-- Modelled from the spec: the class hierarchy below `Type` (`cxxTypes.h` is not under
src), as a closed sum.  The three leaf variants carry only a name; the Reference
variant carries a `ReferenceType` object. -/
inductive CxxType where
  | Fundamental (name : String)
  | Enumeration (name : String)
  | Class (name : String)
  | Reference (r : ReferenceTypeOf CxxType)

/-- The class `CvQualifiedType` over the type model. -/
abbrev CvQualifiedType := CvQualifiedTypeOf CxxType

/-- The class `ReferenceType` over the type model. -/
abbrev ReferenceType := ReferenceTypeOf CxxType

/-- Modelled from the spec: `GenerateName` of the leaf types (section 4.2), whose code
is not under src: `[const ][volatile ]<type-name>[ declarator]`, the keywords in this
order, the declarator appended after one space only when it is non-empty. -/
def LeafGenerateName (name declarator : String) (isConst isVolatile : Bool) : String :=
  (if isConst then "const " else "") ++ (if isVolatile then "volatile " else "")
    ++ name ++ (if declarator = "" then "" else " " ++ declarator)

/-- `ReferenceType::GetRepresentationType`: `return ReferenceType_id;`. -/
def ReferenceType.GetRepresentationType (_self : ReferenceType) : RepresentationType :=
  RepresentationType.ReferenceType_id

/-- `ReferenceType::GetReferencedType`: `return m_ReferencedType;`. -/
def ReferenceType.GetReferencedType (self : ReferenceType) : CvQualifiedType :=
  self.m_ReferencedType

/-- Modelled from the spec: the virtual `GetRepresentationType` of the base class, which
dispatches on the variant.  The Reference case calls the member function of the
source. -/
def CxxType.GetRepresentationType : CxxType → RepresentationType
  | .Fundamental _ => RepresentationType.FundamentalType_id
  | .Enumeration _ => RepresentationType.EnumerationType_id
  | .Class _ => RepresentationType.ClassType_id
  | .Reference r => ReferenceType.GetRepresentationType r

mutual
/-- Modelled from the spec: the virtual `GenerateName` of the base class, which
dispatches on the variant: the leaf types follow section 4.2, the Reference case calls
`ReferenceType::GenerateName`. -/
def CxxType.GenerateName : CxxType → String → Bool → Bool → Option String
  | .Fundamental n, d, c, v => some (LeafGenerateName n d c v)
  | .Enumeration n, d, c, v => some (LeafGenerateName n d c v)
  | .Class n, d, c, v => some (LeafGenerateName n d c v)
  | .Reference r, d, c, v => ReferenceType.GenerateName r d c v
/-- `ReferenceType::GenerateName(const String&, bool, bool)`: the three parameters are
unnamed and unused, the body is `return m_ReferencedType.GenerateName("&");`. -/
def ReferenceType.GenerateName : ReferenceType → String → Bool → Bool → Option String
  | ⟨m_ReferencedType⟩, _, _, _ => CvQualifiedType.GenerateName m_ReferencedType "&"
/-- Modelled from the spec: `CvQualifiedType::GenerateName(declarator)` (section 4.1),
whose code is not under src: it delegates to the underlying type, handing it the
wrapper's own two flags.  Synthesis from an absent underlying type is the fatal error
of section 7 and yields no string. -/
def CvQualifiedType.GenerateName : CvQualifiedType → String → Option String
  | ⟨none, _, _⟩, _ => none
  | ⟨some t, c, v⟩, d => CxxType.GenerateName t d c v
end

/-- The member function `ReferenceType::GenerateName` seen as a step on the object it
is called on: the state is the object, the value is the returned string.  The function
is declared `const` and its body is the single statement
`return m_ReferencedType.GenerateName("&");`, which reads the member of the current
object and assigns nothing. -/
def ReferenceType.GenerateNameCall (_declarator : String) (_isConst _isVolatile : Bool) :
    StateM ReferenceType (Option String) := do
  let self ← get
  return CvQualifiedType.GenerateName self.m_ReferencedType "&"

/-- The member function `ReferenceType::GetRepresentationType` seen as a step on the
object it is called on.  It is declared `const` and its body is
`return ReferenceType_id;`. -/
def ReferenceType.GetRepresentationTypeCall : StateM ReferenceType RepresentationType := do
  return RepresentationType.ReferenceType_id

/-- The text `identifier` occurs in `text` as a contiguous run of characters. -/
def Occurs (identifier text : String) : Prop :=
  identifier.data <:+: text.data

instance Occurs.decidable (identifier text : String) : Decidable (Occurs identifier text) := by
  unfold Occurs
  infer_instance

/-- The reference to the unqualified leaf type `int`. -/
def intReference : ReferenceType :=
  ⟨⟨some (CxxType.Fundamental "int"), false, false⟩⟩

/-- An ill-formed graph: a reference whose referent is a const volatile wrapper over
the reference to `int` (a qualified reference, and a reference to a reference). -/
def referenceToQualifiedReference : ReferenceType :=
  ⟨⟨some (CxxType.Reference intReference), true, true⟩⟩

/-! ## Depth of a graph and the chain of calls of a synthesis -/

mutual
/-- The depth of a type: the number of Reference nodes on the chain from the type down
to its end; a leaf type has depth zero. -/
def CxxType.depth : CxxType → Nat
  | .Fundamental _ => 0
  | .Enumeration _ => 0
  | .Class _ => 0
  | .Reference r => ReferenceType.depth r
/-- The depth of a reference: one more than the depth of its referent wrapper. -/
def ReferenceType.depth : ReferenceType → Nat
  | ⟨m_ReferencedType⟩ => CvQualifiedType.depth m_ReferencedType + 1
/-- The depth of a wrapper: the depth of its underlying type, zero when that type is
absent. -/
def CvQualifiedType.depth : CvQualifiedType → Nat
  | ⟨none, _, _⟩ => 0
  | ⟨some t, _, _⟩ => CxxType.depth t
end

mutual
/-- The innermost non-reference referent below a type held by the wrapper `holder`: the
holder itself when the type is a leaf, otherwise that of the reference. -/
def CxxType.innermost : CxxType → CvQualifiedType → CvQualifiedType
  | .Fundamental _, holder => holder
  | .Enumeration _, holder => holder
  | .Class _, holder => holder
  | .Reference r, _ => ReferenceType.innermost r
/-- The innermost non-reference referent of a reference: that of its referent wrapper. -/
def ReferenceType.innermost : ReferenceType → CvQualifiedType
  | ⟨m_ReferencedType⟩ => CvQualifiedType.innermost m_ReferencedType
/-- The innermost non-reference referent of a wrapper: the first wrapper on the chain
of references starting at it whose underlying type is not a reference (a leaf type, or
an absent type). -/
def CvQualifiedType.innermost : CvQualifiedType → CvQualifiedType
  | ⟨none, c, v⟩ => ⟨none, c, v⟩
  | ⟨some t, c, v⟩ => CxxType.innermost t ⟨some t, c, v⟩
end

/-- A point of a synthesis in progress: a call of the virtual `GenerateName` on a type
with its three arguments, a call of `GenerateName` on a wrapper with its declarator, or
the value returned.  A call of `ReferenceType::GenerateName` on `r` is
`Call.onType (CxxType.Reference r)`. -/
inductive Call where
  | onType (t : CxxType) (declarator : String) (isConst isVolatile : Bool)
  | onWrapper (w : CvQualifiedType) (declarator : String)
  | returned (result : Option String)

/-- One step of a synthesis: what the body of the called function does.  The Reference
case is the body of `ReferenceType::GenerateName` of the source,
`return m_ReferencedType.GenerateName("&");`: one call, on the referent wrapper.
Modelled from the spec: the leaf cases (section 4.2), which return their string without
a further call, and the wrapper cases (sections 4.1 and 7), which call the underlying
type with the wrapper's flags or fail when that type is absent; their code is not under
src.  A returned value stays as it is. -/
def Call.step : Call → Call
  | .onType (.Fundamental n) d c v => .returned (some (LeafGenerateName n d c v))
  | .onType (.Enumeration n) d c v => .returned (some (LeafGenerateName n d c v))
  | .onType (.Class n) d c v => .returned (some (LeafGenerateName n d c v))
  | .onType (.Reference r) _ _ _ => .onWrapper r.m_ReferencedType "&"
  | .onWrapper ⟨none, _, _⟩ _ => .returned none
  | .onWrapper ⟨some t, c, v⟩ d => .onType t d c v
  | .returned result => .returned result

/-- The point reached after `n` steps of a synthesis. -/
def Call.run : Nat → Call → Call
  | 0, call => call
  | n + 1, call => Call.run n (Call.step call)

/-- A leaf type: a variant with no contained type (Fundamental, Enumeration, Class). -/
def CxxType.isLeaf : CxxType → Bool
  | .Fundamental _ => true
  | .Enumeration _ => true
  | .Class _ => true
  | .Reference _ => false

mutual
/-- Every underlying type on the chain below the type is present: the type graph has
no absent (null) type. -/
def CxxType.allPresent : CxxType → Bool
  | .Fundamental _ => true
  | .Enumeration _ => true
  | .Class _ => true
  | .Reference r => ReferenceType.allPresent r
/-- Every underlying type on the chain below the reference is present. -/
def ReferenceType.allPresent : ReferenceType → Bool
  | ⟨m_ReferencedType⟩ => CvQualifiedType.allPresent m_ReferencedType
/-- The underlying type of the wrapper is present, and so is every underlying type on
the chain below it. -/
def CvQualifiedType.allPresent : CvQualifiedType → Bool
  | ⟨none, _, _⟩ => false
  | ⟨some t, _, _⟩ => CxxType.allPresent t
end

/-- An ill-formed chain with an absent type: a reference to a reference whose referent
has no underlying type. -/
def referenceToAbsent : ReferenceType :=
  ⟨⟨some (CxxType.Reference ⟨⟨none, false, false⟩⟩), false, false⟩⟩

/-! ## Unfolding lemmas -/

theorem ReferenceType.GenerateName_unfold (r : ReferenceType) (d : String) (c v : Bool) :
    ReferenceType.GenerateName r d c v
      = CvQualifiedType.GenerateName r.m_ReferencedType "&" := by
  cases r
  rfl

theorem ReferenceType.GenerateNameCall_run (r : ReferenceType) (d : String) (c v : Bool) :
    (ReferenceType.GenerateNameCall d c v).run r = (ReferenceType.GenerateName r d c v, r) := by
  cases r
  rfl

theorem ReferenceType.GetRepresentationTypeCall_run (r : ReferenceType) :
    ReferenceType.GetRepresentationTypeCall.run r
      = (ReferenceType.GetRepresentationType r, r) := by
  rfl

theorem LeafGenerateName_seed (n : String) (c v : Bool) :
    LeafGenerateName n "&" c v
      = (if c then "const " else "") ++ (if v then "volatile " else "") ++ n ++ " " ++ "&" := by
  simp [LeafGenerateName, String.append_assoc]

theorem Occurs.length_le {identifier text : String} (h : Occurs identifier text) :
    identifier.length ≤ text.length := by
  unfold Occurs at h
  exact h.length_le

/-! ## Worked cases -/

theorem intReference_name :
    ReferenceType.GenerateName intReference "" false false = some "int &" := by
  decide

theorem constIntReference_name :
    ReferenceType.GenerateName ⟨⟨some (CxxType.Fundamental "int"), true, false⟩⟩ "" false false
      = some "const int &" := by
  decide

theorem constVolatileIntReference_name :
    ReferenceType.GenerateName ⟨⟨some (CxxType.Fundamental "int"), true, true⟩⟩ "" false false
      = some "const volatile int &" := by
  decide

theorem referenceToQualifiedReference_name :
    ReferenceType.GenerateName referenceToQualifiedReference "x" true false = some "int &" := by
  decide

theorem absentReferent_name :
    ReferenceType.GenerateName ⟨⟨none, false, false⟩⟩ "x" false false = none := by
  decide

theorem referenceToQualifiedReference_referent :
    ReferenceType.GetReferencedType referenceToQualifiedReference
      = ⟨some (CxxType.Reference intReference), true, true⟩ := by
  rfl

/-! ## Properties of `ReferenceType` -/

/-- C1: for every reference built over a wrapper `t`, every declarator and every pair
of flags, `GenerateName` returns what `t.GenerateName("&")` returns: the referent is
asked to synthesize with the one-character seed `&` and nothing else. -/
theorem GenerateName_eq_referent_seed (t : CvQualifiedType) (d : String) (c v : Bool) :
    ReferenceType.GenerateName (ReferenceTypeOf.mk t) d c v
      = CvQualifiedType.GenerateName t "&" := by
  rfl

/-- C2: for every reference and every declarator, the result of `GenerateName` is the
same for all values of the two flags. -/
theorem GenerateName_flags_irrelevant (r : ReferenceType) (d : String) (c v c2 v2 : Bool) :
    ReferenceType.GenerateName r d c v = ReferenceType.GenerateName r d c2 v2 := by
  rw [ReferenceType.GenerateName_unfold, ReferenceType.GenerateName_unfold]

/-- C3: for every reference and every pair of flags, the result of `GenerateName` is
the same for any two declarators. -/
theorem GenerateName_declarator_irrelevant (r : ReferenceType) (c v : Bool) (d1 d2 : String) :
    ReferenceType.GenerateName r d1 c v = ReferenceType.GenerateName r d2 c v := by
  rw [ReferenceType.GenerateName_unfold, ReferenceType.GenerateName_unfold]

/-- C4, as stated, fails: the reference to the leaf type `int`, asked for a declarator
of the non-empty identifier `x`, returns `int &`, in which `x` does not occur. -/
theorem GenerateName_identifier_absent :
    "x" ≠ "" ∧
    ReferenceType.GenerateName intReference "x" false false = some "int &" ∧
    ¬ ∃ s, ReferenceType.GenerateName intReference "x" false false = some s ∧ Occurs "x" s := by
  refine ⟨by decide, by decide, ?_⟩
  rintro ⟨s, hs, hocc⟩
  have h : ReferenceType.GenerateName intReference "x" false false = some "int &" := by decide
  rw [h] at hs
  cases hs
  revert hocc
  decide

/-- C4, amended: for every reference and every identifier, `GenerateName` returns the
same result as for the empty identifier, namely what the referent wrapper returns for
the seed `&`; the identifier is not inserted, so an identifier longer than the returned
string does not occur in it. -/
theorem GenerateName_discards_identifier (r : ReferenceType) (identifier : String)
    (c v : Bool) :
    ReferenceType.GenerateName r identifier c v = ReferenceType.GenerateName r "" c v ∧
    ReferenceType.GenerateName r identifier c v
      = CvQualifiedType.GenerateName (ReferenceType.GetReferencedType r) "&" ∧
    ∀ s, ReferenceType.GenerateName r identifier c v = some s →
      s.length < identifier.length → ¬ Occurs identifier s := by
  refine ⟨?_, ?_, ?_⟩
  · rw [ReferenceType.GenerateName_unfold, ReferenceType.GenerateName_unfold]
  · rw [ReferenceType.GenerateName_unfold]
    rfl
  · intro s _ hlt hocc
    exact absurd hocc.length_le (Nat.not_le_of_lt hlt)

/-- C5: with the wrapper and the leaf types as the specification defines them, a
reference over the wrapper of a leaf type named `n` with flags `c` and `v` synthesizes,
for every declarator and all flag arguments, the keywords of the wrapper (`const ` if
`c`, then `volatile ` if `v`), then `n`, one space and `&`. -/
theorem GenerateName_reference_to_leaf (n : String) (c v : Bool) (d : String)
    (c2 v2 : Bool) :
    ReferenceType.GenerateName ⟨⟨some (CxxType.Fundamental n), c, v⟩⟩ d c2 v2
      = some ((if c then "const " else "") ++ (if v then "volatile " else "") ++ n
          ++ " " ++ "&") ∧
    ReferenceType.GenerateName ⟨⟨some (CxxType.Enumeration n), c, v⟩⟩ d c2 v2
      = some ((if c then "const " else "") ++ (if v then "volatile " else "") ++ n
          ++ " " ++ "&") ∧
    ReferenceType.GenerateName ⟨⟨some (CxxType.Class n), c, v⟩⟩ d c2 v2
      = some ((if c then "const " else "") ++ (if v then "volatile " else "") ++ n
          ++ " " ++ "&") := by
  refine ⟨?_, ?_, ?_⟩ <;>
    · rw [← LeafGenerateName_seed]
      rfl

/-- C6: for every reference, whatever wrapper it holds, `GetRepresentationType` returns
`ReferenceType_id`, also when called through the base class, and returns none of the
six other tags. -/
theorem GetRepresentationType_is_reference (t : CvQualifiedType) :
    ReferenceType.GetRepresentationType (ReferenceTypeOf.mk t)
      = RepresentationType.ReferenceType_id ∧
    CxxType.GetRepresentationType (CxxType.Reference (ReferenceTypeOf.mk t))
      = RepresentationType.ReferenceType_id ∧
    ReferenceType.GetRepresentationType (ReferenceTypeOf.mk t)
      ≠ RepresentationType.FundamentalType_id ∧
    ReferenceType.GetRepresentationType (ReferenceTypeOf.mk t)
      ≠ RepresentationType.EnumerationType_id ∧
    ReferenceType.GetRepresentationType (ReferenceTypeOf.mk t)
      ≠ RepresentationType.ClassType_id ∧
    ReferenceType.GetRepresentationType (ReferenceTypeOf.mk t)
      ≠ RepresentationType.PointerType_id ∧
    ReferenceType.GetRepresentationType (ReferenceTypeOf.mk t)
      ≠ RepresentationType.ArrayType_id ∧
    ReferenceType.GetRepresentationType (ReferenceTypeOf.mk t)
      ≠ RepresentationType.FunctionType_id := by
  refine ⟨rfl, rfl, ?_, ?_, ?_, ?_, ?_, ?_⟩ <;>
    · unfold ReferenceType.GetRepresentationType
      decide

/-- C7: for every wrapper `t`, well-formed or not, the constructor yields a reference
whose `GetReferencedType` is `t`: same underlying type, same is-const, same
is-volatile.  The constructor is total: it has no check that could reject `t`. -/
theorem GetReferencedType_of_constructed (t : CvQualifiedType) :
    ReferenceType.GetReferencedType (ReferenceTypeOf.mk t) = t ∧
    (ReferenceType.GetReferencedType (ReferenceTypeOf.mk t)).m_Type = t.m_Type ∧
    (ReferenceType.GetReferencedType (ReferenceTypeOf.mk t)).m_Const = t.m_Const ∧
    (ReferenceType.GetReferencedType (ReferenceTypeOf.mk t)).m_Volatile = t.m_Volatile := by
  exact ⟨rfl, rfl, rfl, rfl⟩

/-- C8: for every reference and all arguments, a call of `GenerateName` followed by a
second call with the same arguments on the object as the first call left it returns
the same result, and that result is the value of the function of the graph and the
arguments. -/
theorem GenerateName_repeatable (r : ReferenceType) (d : String) (c v : Bool) :
    ((ReferenceType.GenerateNameCall d c v).run
        ((ReferenceType.GenerateNameCall d c v).run r).2).1
      = ((ReferenceType.GenerateNameCall d c v).run r).1 ∧
    ((ReferenceType.GenerateNameCall d c v).run r).1 = ReferenceType.GenerateName r d c v := by
  simp only [ReferenceType.GenerateNameCall_run, and_self]

/-- C9: for every reference and all arguments, flags set and a non-empty declarator
included, `GenerateName` returns a string whenever the referent wrapper's
`GenerateName("&")` returns one, and it is that string. -/
theorem GenerateName_succeeds_with_referent (r : ReferenceType) (d : String) (c v : Bool)
    (s : String)
    (h : CvQualifiedType.GenerateName (ReferenceType.GetReferencedType r) "&" = some s) :
    ReferenceType.GenerateName r d c v = some s := by
  rw [ReferenceType.GenerateName_unfold]
  exact h

/-- C9 at the reference to `int`, with both flags set and the declarator `x`. -/
theorem GenerateName_succeeds_with_referent_witness :
    CvQualifiedType.GenerateName (ReferenceType.GetReferencedType intReference) "&"
      = some "int &" ∧
    ReferenceType.GenerateName intReference "x" true true = some "int &" :=
  ⟨by decide, GenerateName_succeeds_with_referent intReference "x" true true "int &" (by decide)⟩

/-- C10: for every reference and all arguments, the wrapper `GetReferencedType` returns
after a call of `GenerateName`, and after a call of `GetRepresentationType`, equals the
wrapper it returned before the call. -/
theorem calls_preserve_referent (r : ReferenceType) (d : String) (c v : Bool) :
    ReferenceType.GetReferencedType ((ReferenceType.GenerateNameCall d c v).run r).2
      = ReferenceType.GetReferencedType r ∧
    ReferenceType.GetReferencedType (ReferenceType.GetRepresentationTypeCall.run r).2
      = ReferenceType.GetReferencedType r := by
  rw [ReferenceType.GenerateNameCall_run, ReferenceType.GetRepresentationTypeCall_run]
  exact ⟨rfl, rfl⟩

/-! ## The chain of calls: lemmas -/

theorem CvQualifiedType.chain_induction {P : CvQualifiedType → Prop}
    (absent : ∀ c v, P ⟨none, c, v⟩)
    (fundamental : ∀ n c v, P ⟨some (CxxType.Fundamental n), c, v⟩)
    (enumeration : ∀ n c v, P ⟨some (CxxType.Enumeration n), c, v⟩)
    (class_ : ∀ n c v, P ⟨some (CxxType.Class n), c, v⟩)
    (reference : ∀ w c v, P w → P ⟨some (CxxType.Reference ⟨w⟩), c, v⟩) :
    ∀ w, P w := by
  suffices h : ∀ n, ∀ w : CvQualifiedType, CvQualifiedType.depth w = n → P w from
    fun w => h _ w rfl
  intro n
  induction n with
  | zero =>
    intro w hw
    rcases w with ⟨_ | t, c, v⟩
    · exact absent c v
    · cases t with
      | Fundamental n => exact fundamental n c v
      | Enumeration n => exact enumeration n c v
      | Class n => exact class_ n c v
      | Reference r =>
        rcases r with ⟨w2⟩
        simp [CvQualifiedType.depth, CxxType.depth, ReferenceType.depth] at hw
  | succ n ih =>
    intro w hw
    rcases w with ⟨_ | t, c, v⟩
    · exact absent c v
    · cases t with
      | Fundamental n => exact fundamental n c v
      | Enumeration n => exact enumeration n c v
      | Class n => exact class_ n c v
      | Reference r =>
        rcases r with ⟨w2⟩
        simp only [CvQualifiedType.depth, CxxType.depth, ReferenceType.depth,
          Nat.add_right_cancel_iff] at hw
        exact reference w2 c v (ih w2 hw)

theorem Call.run_add (a b : Nat) :
    ∀ call, Call.run (a + b) call = Call.run b (Call.run a call) := by
  induction a with
  | zero => intro call; simp [Call.run]
  | succ a ih =>
    intro call
    have e : a + 1 + b = (a + b) + 1 := by omega
    rw [e]
    simp only [Call.run]
    exact ih _

theorem Call.run_returned (k : Nat) (result : Option String) :
    Call.run k (Call.returned result) = Call.returned result := by
  induction k with
  | zero => rfl
  | succ k ih => simpa [Call.run, Call.step] using ih

theorem CvQualifiedType.run_to_innermost (w : CvQualifiedType) :
    Call.run (2 * CvQualifiedType.depth w) (Call.onWrapper w "&")
      = Call.onWrapper (CvQualifiedType.innermost w) "&" := by
  induction w using CvQualifiedType.chain_induction with
  | absent c v => rfl
  | fundamental n c v => rfl
  | enumeration n c v => rfl
  | class_ n c v => rfl
  | reference w c v ih =>
    have e : CvQualifiedType.depth ⟨some (CxxType.Reference ⟨w⟩), c, v⟩
        = CvQualifiedType.depth w + 1 := by
      simp [CvQualifiedType.depth, CxxType.depth, ReferenceType.depth]
    have e2 : 2 * (CvQualifiedType.depth w + 1) = 2 * CvQualifiedType.depth w + 1 + 1 := by ring
    rw [e, e2]
    simp only [Call.run, Call.step, CvQualifiedType.innermost, CxxType.innermost,
      ReferenceType.innermost]
    exact ih

theorem CvQualifiedType.innermost_not_reference (w : CvQualifiedType) (r : ReferenceType) :
    (CvQualifiedType.innermost w).m_Type ≠ some (CxxType.Reference r) := by
  induction w using CvQualifiedType.chain_induction with
  | absent c v => simp [CvQualifiedType.innermost]
  | fundamental n c v => simp [CvQualifiedType.innermost, CxxType.innermost]
  | enumeration n c v => simp [CvQualifiedType.innermost, CxxType.innermost]
  | class_ n c v => simp [CvQualifiedType.innermost, CxxType.innermost]
  | reference w c v ih =>
    simpa [CvQualifiedType.innermost, CxxType.innermost, ReferenceType.innermost] using ih

theorem CvQualifiedType.GenerateName_innermost (w : CvQualifiedType) :
    CvQualifiedType.GenerateName (CvQualifiedType.innermost w) "&"
      = CvQualifiedType.GenerateName w "&" := by
  induction w using CvQualifiedType.chain_induction with
  | absent c v => rfl
  | fundamental n c v => rfl
  | enumeration n c v => rfl
  | class_ n c v => rfl
  | reference w c v ih =>
    simpa [CvQualifiedType.innermost, CxxType.innermost, ReferenceType.innermost,
      CvQualifiedType.GenerateName, CxxType.GenerateName, ReferenceType.GenerateName] using ih

theorem CvQualifiedType.run_innermost_returns (w : CvQualifiedType) (d : String) :
    Call.run 2 (Call.onWrapper (CvQualifiedType.innermost w) d)
      = Call.returned (CvQualifiedType.GenerateName (CvQualifiedType.innermost w) d) := by
  induction w using CvQualifiedType.chain_induction with
  | absent c v => rfl
  | fundamental n c v => rfl
  | enumeration n c v => rfl
  | class_ n c v => rfl
  | reference w c v ih =>
    simpa [CvQualifiedType.innermost, CxxType.innermost, ReferenceType.innermost] using ih

theorem ReferenceType.depth_Reference (r : ReferenceType) :
    CxxType.depth (CxxType.Reference r) = CvQualifiedType.depth r.m_ReferencedType + 1 := by
  cases r
  simp [CxxType.depth, ReferenceType.depth]

theorem ReferenceType.run_returns (r : ReferenceType) (d : String) (c v : Bool) (k : Nat) :
    Call.run (2 * CxxType.depth (CxxType.Reference r) + 1 + k)
        (Call.onType (CxxType.Reference r) d c v)
      = Call.returned (ReferenceType.GenerateName r d c v) := by
  have e : 2 * CxxType.depth (CxxType.Reference r) + 1 + k
      = 1 + (2 * CvQualifiedType.depth r.m_ReferencedType + (2 + k)) := by
    rw [ReferenceType.depth_Reference]; ring
  rw [e, Call.run_add, Call.run_add, Call.run_add]
  have h1 : Call.run 1 (Call.onType (CxxType.Reference r) d c v)
      = Call.onWrapper r.m_ReferencedType "&" := rfl
  rw [h1, CvQualifiedType.run_to_innermost, CvQualifiedType.run_innermost_returns,
    Call.run_returned, CvQualifiedType.GenerateName_innermost, ReferenceType.GenerateName_unfold]

theorem intReference_run :
    Call.run 3 (Call.onType (CxxType.Reference intReference) "x" true true)
      = Call.returned (some "int &") := by
  rfl

theorem referenceToQualifiedReference_run :
    Call.run 5 (Call.onType (CxxType.Reference referenceToQualifiedReference) "x" false true)
      = Call.returned (some "int &") := by
  rfl

theorem referenceToQualifiedReference_innermost :
    CvQualifiedType.innermost (ReferenceType.GetReferencedType referenceToQualifiedReference)
      = ⟨some (CxxType.Fundamental "int"), false, false⟩ := by
  rfl

theorem CvQualifiedType.innermost_leaf (w : CvQualifiedType)
    (h : CvQualifiedType.allPresent w = true) :
    ∃ (leaf : CxxType) (lc lv : Bool),
      CxxType.isLeaf leaf = true ∧ CvQualifiedType.innermost w = ⟨some leaf, lc, lv⟩ := by
  induction w using CvQualifiedType.chain_induction with
  | absent c v => simp [CvQualifiedType.allPresent] at h
  | fundamental n c v => exact ⟨CxxType.Fundamental n, c, v, rfl, rfl⟩
  | enumeration n c v => exact ⟨CxxType.Enumeration n, c, v, rfl, rfl⟩
  | class_ n c v => exact ⟨CxxType.Class n, c, v, rfl, rfl⟩
  | reference w c v ih =>
    have hw : CvQualifiedType.allPresent w = true := by
      simpa [CvQualifiedType.allPresent, CxxType.allPresent, ReferenceType.allPresent] using h
    obtain ⟨leaf, lc, lv, hleaf, hinner⟩ := ih hw
    refine ⟨leaf, lc, lv, hleaf, ?_⟩
    simpa [CvQualifiedType.innermost, CxxType.innermost, ReferenceType.innermost] using hinner

theorem CxxType.leaf_GenerateName (leaf : CxxType) (d : String) (c v : Bool)
    (h : CxxType.isLeaf leaf = true) :
    ∃ s, Call.step (Call.onType leaf d c v) = Call.returned (some s) ∧
      CvQualifiedType.GenerateName ⟨some leaf, c, v⟩ d = some s := by
  cases leaf with
  | Fundamental n => exact ⟨_, rfl, rfl⟩
  | Enumeration n => exact ⟨_, rfl, rfl⟩
  | Class n => exact ⟨_, rfl, rfl⟩
  | Reference r => simp [CxxType.isLeaf] at h

theorem referenceToAbsent_run :
    CxxType.allPresent (CxxType.Reference referenceToAbsent) = false ∧
    Call.run 4 (Call.onType (CxxType.Reference referenceToAbsent) "x" false false)
      = Call.returned none ∧
    ReferenceType.GenerateName referenceToAbsent "x" false false = none := by
  exact ⟨rfl, rfl, rfl⟩

/-! ## Termination and collapse of reference chains -/

/-- C11: name synthesis over a type graph whose composite nodes are references, every
type of which is present, terminates and ends at a leaf.  A call of
`ReferenceType::GenerateName` makes one call, on its referent wrapper with the seed `&`;
the wrapper is strictly less deep than the reference; after twice the depth steps the
chain of calls is at `GenerateName` of a leaf type, held by the innermost non-reference
referent, with the seed `&`; that call returns a string, which is the value of
`GenerateName` of the reference, and the chain stays returned from then on. -/
theorem GenerateName_terminates (r : ReferenceType) (d : String) (c v : Bool)
    (hpresent : CxxType.allPresent (CxxType.Reference r) = true) :
    Call.step (Call.onType (CxxType.Reference r) d c v)
      = Call.onWrapper (ReferenceType.GetReferencedType r) "&" ∧
    CvQualifiedType.depth (ReferenceType.GetReferencedType r)
      < CxxType.depth (CxxType.Reference r) ∧
    ∃ (leaf : CxxType) (lc lv : Bool) (s : String),
      CxxType.isLeaf leaf = true ∧
      CvQualifiedType.innermost (ReferenceType.GetReferencedType r) = ⟨some leaf, lc, lv⟩ ∧
      Call.run (2 * CxxType.depth (CxxType.Reference r))
          (Call.onType (CxxType.Reference r) d c v)
        = Call.onType leaf "&" lc lv ∧
      Call.step (Call.onType leaf "&" lc lv) = Call.returned (some s) ∧
      ReferenceType.GenerateName r d c v = some s ∧
      ∀ k, Call.run (2 * CxxType.depth (CxxType.Reference r) + 1 + k)
          (Call.onType (CxxType.Reference r) d c v)
        = Call.returned (some s) := by
  have hw : CvQualifiedType.allPresent r.m_ReferencedType = true := by
    cases r
    simpa [CxxType.allPresent, ReferenceType.allPresent] using hpresent
  obtain ⟨leaf, lc, lv, hleaf, hinner⟩ := CvQualifiedType.innermost_leaf r.m_ReferencedType hw
  obtain ⟨s, hs⟩ := CxxType.leaf_GenerateName leaf "&" lc lv hleaf
  have hname : ReferenceType.GenerateName r d c v = some s := by
    rw [ReferenceType.GenerateName_unfold, ← CvQualifiedType.GenerateName_innermost, hinner]
    exact hs.2
  refine ⟨rfl, ?_, leaf, lc, lv, s, hleaf, hinner, ?_, hs.1, hname, ?_⟩
  · rw [ReferenceType.depth_Reference]
    exact Nat.lt_succ_self _
  · have e : 2 * CxxType.depth (CxxType.Reference r)
        = 1 + (2 * CvQualifiedType.depth r.m_ReferencedType + 1) := by
      rw [ReferenceType.depth_Reference]; ring
    rw [e, Call.run_add, Call.run_add]
    have h1 : Call.run 1 (Call.onType (CxxType.Reference r) d c v)
        = Call.onWrapper r.m_ReferencedType "&" := rfl
    rw [h1, CvQualifiedType.run_to_innermost, hinner]
    rfl
  · intro k
    rw [ReferenceType.run_returns, hname]

/-- C11 at the reference to a const volatile reference to `int`, a chain of depth two
with every type present: after four steps the chain is at the leaf `int`, which
returns `int &`. -/
theorem GenerateName_terminates_witness :
    CxxType.allPresent (CxxType.Reference referenceToQualifiedReference) = true ∧
    ∃ (leaf : CxxType) (lc lv : Bool) (s : String),
      CxxType.isLeaf leaf = true ∧
      CvQualifiedType.innermost (ReferenceType.GetReferencedType referenceToQualifiedReference)
        = ⟨some leaf, lc, lv⟩ ∧
      Call.run (2 * CxxType.depth (CxxType.Reference referenceToQualifiedReference))
          (Call.onType (CxxType.Reference referenceToQualifiedReference) "x" true false)
        = Call.onType leaf "&" lc lv ∧
      Call.step (Call.onType leaf "&" lc lv) = Call.returned (some s) ∧
      ReferenceType.GenerateName referenceToQualifiedReference "x" true false = some s ∧
      ∀ k, Call.run (2 * CxxType.depth (CxxType.Reference referenceToQualifiedReference) + 1 + k)
          (Call.onType (CxxType.Reference referenceToQualifiedReference) "x" true false)
        = Call.returned (some s) :=
  ⟨by decide,
    (GenerateName_terminates referenceToQualifiedReference "x" true false (by decide)).2.2⟩

/-- C12: a reference to a reference collapses in the output.  For every reference `r`
and every wrapper over `r`, whatever the wrapper's flags, the reference built over that
wrapper synthesizes, for all arguments, what `r` synthesizes for any arguments: the
result of the single seed `&` at the innermost non-reference referent. -/
theorem reference_to_reference_collapses (r : ReferenceType) (wc wv : Bool)
    (d : String) (c v : Bool) (d2 : String) (c2 v2 : Bool) :
    ReferenceType.GenerateName (ReferenceTypeOf.mk ⟨some (CxxType.Reference r), wc, wv⟩) d c v
      = ReferenceType.GenerateName r d2 c2 v2 ∧
    ReferenceType.GenerateName (ReferenceTypeOf.mk ⟨some (CxxType.Reference r), wc, wv⟩) d c v
      = CvQualifiedType.GenerateName
          (CvQualifiedType.innermost (ReferenceType.GetReferencedType r)) "&" ∧
    ∀ r2 : ReferenceType,
      (CvQualifiedType.innermost (ReferenceType.GetReferencedType r)).m_Type
        ≠ some (CxxType.Reference r2) := by
  have h : ReferenceType.GenerateName
      (ReferenceTypeOf.mk ⟨some (CxxType.Reference r), wc, wv⟩) d c v
        = CvQualifiedType.GenerateName r.m_ReferencedType "&" := by
    rw [ReferenceType.GenerateName_unfold]
    simp only [CvQualifiedType.GenerateName, CxxType.GenerateName]
    exact ReferenceType.GenerateName_unfold r "&" wc wv
  refine ⟨?_, ?_, ?_⟩
  · rw [h, ReferenceType.GenerateName_unfold]
  · rw [h, CvQualifiedType.GenerateName_innermost]
    rfl
  · exact CvQualifiedType.innermost_not_reference _

end cxx
